import Mathlib

set_option linter.unusedSectionVars false
set_option linter.unusedVariables false

/-!
# Verification of the pacopy repository (Newton corrector + natural-parameter continuation)

This file embeds the two source files of the repository and settles the frozen
claims about them.

* `src/pycont/newton.py` — an older variant of the Newton solver.  It is embedded
  with an explicit heap (`pycontLoop`, `pycontNewton`) so that the in-place numpy
  mutation (`u = u0.copy(); u += du`) and its frame effect on the caller's `u0`
  are faithfully representable.

* `src/src/pacopy/natural.py` — the natural-parameter continuation driver.  It is
  embedded line by line (`naturalInit`, `naturalIter`, `naturalLoop`, `natural`).
  The driver imports its corrector with `from .newton import newton`, i.e. from
  `src/pacopy/newton.py`, a module of this repository that is not present under
  `src/`; that solver is therefore modelled from the specification (`newton`
  below).

Numeric values (Python floats) are modelled by `ℚ`; vectors are an abstract type
`V` with the pointwise operations the code uses (`+`, unary `-`, scalar `*`).
Python's `print` calls (the `verbose` flag) carry no control-flow significance
and are omitted.
-/

section NewtonSolver

variable {V : Type} [Add V] [Neg V]

/-- One Newton correction as performed inside the loop of the solver:
`du = jacobian_solver(u, -f(u)); u + du`. -/
def newtonStep (f : V → V) (jacobian_solver : V → V → V) (u : V) : V :=
  u + jacobian_solver u (-(f u))

/-- The `n`-th Newton iterate starting from `u`. -/
def newtonIter (f : V → V) (jacobian_solver : V → V → V) : ℕ → V → V
  | 0, u => u
  | n + 1, u => newtonIter f jacobian_solver n (newtonStep f jacobian_solver u)

/-- Modelled from the spec: the loop of `src/pacopy/newton.py` (the module
`natural.py` imports as `.newton`), which is missing from `src/`.  Spec §4.1:
"evaluate residual at `u0`; while the norm exceeds `tol` and iteration count
`< max_iter`, compute `Δu = linear_solve_fn(u, −residual_fn(u))`, update
`u += Δu`, recompute residual and norm, increment iteration count.  Convergence
is checked before each correction."  `fuel` is the remaining iteration budget
`max_iter - k`; failure carries the iteration count reached. -/
def newtonLoop (f : V → V) (jacobian_solver : V → V → V) (norm2_r : V → ℚ)
    (tol : ℚ) : ℕ → V → V → ℕ → Except ℕ (V × ℕ)
  | fuel, u, fu, k =>
    if norm2_r fu < tol then Except.ok (u, k)
    else
      match fuel with
      | 0 => Except.error k
      | fuel + 1 =>
        let du := jacobian_solver u (-fu)
        let u2 := u + du
        newtonLoop f jacobian_solver norm2_r tol fuel u2 (f u2) (k + 1)

/-- Modelled from the spec: `newton` of `src/pacopy/newton.py`, which is missing
from `src/` (only its caller `src/src/pacopy/natural.py` is present).  Spec §4.1
contract: `solve(residual_fn, linear_solve_fn, norm_fn, u0, tol, max_iter) →
(u*, steps_taken)`; on failure it signals a convergence-failure condition
carrying the iteration count reached (modelled as `Except.error`, following the
result-type reading of spec §9). -/
def newton (f : V → V) (jacobian_solver : V → V → V) (norm2_r : V → ℚ)
    (u0 : V) (tol : ℚ) (max_iter : ℕ) : Except ℕ (V × ℕ) :=
  newtonLoop f jacobian_solver norm2_r tol max_iter u0 (f u0) 0

end NewtonSolver

section PycontNewton

variable {V : Type} [Add V] [Neg V] [Inhabited V]

/-- The while-loop of `src/pycont/newton.py` (lines 18–30), over an explicit
heap: numpy arrays are heap cells (`cells : List V`), the local `u` is the cell
at index `iu`, and `u += du` is an in-place write to that cell.  The loop checks
`k < max_iter` first (here: `fuel = max_iter - k` reaching `0`), then the
convergence test `nrm < tol`; leaving the loop with the budget exhausted raises
`NewtonConvergenceError` carrying `k` (lines 32–35), even if the final
correction happened to converge.  `fu` threads the residual of the current
iterate, as in the source; `numpy.linalg.norm` is abstracted as `nrm`. -/
def pycontLoop (f : V → V) (jacobian_solver : V → V → V) (nrm : V → ℚ)
    (tol : ℚ) : ℕ → List V → ℕ → V → ℕ → Except ℕ ℕ × List V
  | 0, cells, _, _, k => (Except.error k, cells)
  | fuel + 1, cells, iu, fu, k =>
    if nrm fu < tol then (Except.ok iu, cells)
    else
      let u := cells.getD iu default
      let du := jacobian_solver u (-fu)
      let u2 := u + du
      pycontLoop f jacobian_solver nrm tol fuel (cells.set iu u2) iu (f u2) (k + 1)

/-- The `newton` of `src/pycont/newton.py` (lines 10–37): `u = u0.copy()` allocates a
fresh heap cell holding the value of the caller's array `u0` (cell `iu0`), all
in-place updates go to the fresh cell, and on success the reference to that cell
is returned (the function returns only `u`, not an iteration count). -/
def pycontNewton (f : V → V) (jacobian_solver : V → V → V) (nrm : V → ℚ)
    (cells : List V) (iu0 : ℕ) (tol : ℚ) (max_iter : ℕ) : Except ℕ ℕ × List V :=
  let u0 := cells.getD iu0 default
  let cells1 := cells ++ [u0]
  let iu := cells.length
  pycontLoop f jacobian_solver nrm tol max_iter cells1 iu (f u0) 0

end PycontNewton

section NaturalDriver

variable {V : Type} [Add V] [Neg V] [SMul ℚ V]

/-- The external collaborator of `natural` (`src/src/pacopy/natural.py`):
residual `f(u, lmbda)`, Jacobian-solve oracle `jacobian_solver(u, lmbda, rhs)`,
norm `norm2_r(r)` and parameter derivative `df_dlmbda(u, lmbda)`. -/
structure Problem (V : Type) where
  f : V → ℚ → V
  jacobian_solver : V → ℚ → V → V
  norm2_r : V → ℚ
  df_dlmbda : V → ℚ → V

/-- The keyword arguments of `natural` (`src/src/pacopy/natural.py`, lines
11–18).  The Python defaults `float("inf")` for `lambda_stepsize_max` and
`max_steps` are not representable in `ℚ`; the claims quantify over configured
values.  `verbose` only prints and is omitted. -/
structure NaturalConfig where
  lambda_stepsize0 : ℚ
  lambda_stepsize_max : ℚ
  lambda_stepsize_aggressiveness : ℚ
  max_newton_steps : ℕ
  newton_tol : ℚ
  max_steps : ℚ
  use_first_order_predictor : Bool
deriving DecidableEq

/-- The mutable state of the continuation loop in `natural`: the step index `k`,
the current parameter `lmbda`, solution `u` and step size `stepsize`
(`lambda_stepsize`), together with the milestone iterator: `msActive` records
`milestones is not None` (a Python iterator object is always truthy, so line 85
`if milestones:` tests exactly this), `milestone` is the value taken by `next`,
and `msRest` the part of the sequence not yet consumed.  `trace` records the
`callback(k, lmbda, u)` invocations made so far, in order. -/
structure NatState (V : Type) where
  k : ℕ
  lmbda : ℚ
  u : V
  stepsize : ℚ
  msActive : Bool
  milestone : ℚ
  msRest : List ℚ
  trace : List (ℕ × ℚ × V)
deriving DecidableEq

/-- Outcome of one iteration of the `while True` loop of `natural`:
`brk` leaves the loop (the driver then returns normally), `cont` goes round
again with the updated state. -/
inductive StepOut (V : Type) where
  | brk (trace : List (ℕ × ℚ × V))
  | cont (s : NatState V)
deriving DecidableEq

/-- The predictor's candidate parameter (`natural.py` lines 84–86):
`lmbda += lambda_stepsize`, then `if milestones: lmbda = min(lmbda, milestone)`. -/
def trialLambda (s : NatState V) : ℚ :=
  let l := s.lmbda + s.stepsize
  if s.msActive then min l s.milestone else l

/-- The corrector's initial guess (`natural.py` lines 87–91): the first-order
predictor `u + jacobian_solver(u, lmbda, -df_dlmbda(u, lmbda)) * lambda_stepsize`
(evaluated at the already-clamped trial `lmbda`), or the zero-order predictor
`u`. -/
def predictorGuess (P : Problem V) (cfg : NaturalConfig) (s : NatState V) : V :=
  if cfg.use_first_order_predictor then
    s.u + s.stepsize •
      P.jacobian_solver s.u (trialLambda s) (-(P.df_dlmbda s.u (trialLambda s)))
  else s.u

/-- The corrector call of `natural.py` lines 95–102: `newton` on
`F(·, lmbda_trial)` from the predicted guess, at tolerance `newton_tol` and
budget `max_newton_steps`. -/
def correctorResult (P : Problem V) (cfg : NaturalConfig) (s : NatState V) :
    Except ℕ (V × ℕ) :=
  newton (fun u => P.f u (trialLambda s))
    (fun u rhs => P.jacobian_solver u (trialLambda s) rhs)
    P.norm2_r (predictorGuess P cfg s) cfg.newton_tol cfg.max_newton_steps

/-- The step-growth factor of `natural.py` lines 118–122:
`1 + lambda_stepsize_aggressiveness *
((max_newton_steps - newton_steps) / (max_newton_steps - 1)) ** 2`.
In `ℚ`, division by zero yields `0`, so at `max_newton_steps = 1` this factor is
`1`, whereas Python raises `ZeroDivisionError` there (the spec lists this as an
open question); theorems touching the growth assume `max_newton_steps ≠ 1`. -/
def stepGrowthFactor (cfg : NaturalConfig) (newton_steps : ℕ) : ℚ :=
  1 + cfg.lambda_stepsize_aggressiveness *
    (((cfg.max_newton_steps : ℚ) - (newton_steps : ℚ)) /
      ((cfg.max_newton_steps : ℚ) - 1)) ^ 2

/-- One iteration of the `while True` loop of `natural.py` (lines 73–123):
check `k > max_steps`; predict; correct; on `NewtonConvergenceError` undo
`lmbda -= lambda_stepsize` (note: the full step size is subtracted from the
already-clamped trial value), halve the step size and `continue`; on success
invoke the callback, advance `k`, then either advance/exhaust the milestone
iterator (when `milestones is not None and lmbda == milestone`) or grow the step
size and clamp it to `lambda_stepsize_max`. -/
def naturalIter (P : Problem V) (cfg : NaturalConfig) (s : NatState V) :
    StepOut V :=
  if (s.k : ℚ) > cfg.max_steps then StepOut.brk s.trace
  else
    match correctorResult P cfg s with
    | Except.error _ =>
      StepOut.cont ⟨s.k, trialLambda s - s.stepsize, s.u, s.stepsize / 2,
        s.msActive, s.milestone, s.msRest, s.trace⟩
    | Except.ok (u, newton_steps) =>
      let trace := s.trace ++ [(s.k, trialLambda s, u)]
      if s.msActive ∧ trialLambda s = s.milestone then
        match s.msRest with
        | [] => StepOut.brk trace
        | m :: rest =>
          StepOut.cont ⟨s.k + 1, trialLambda s, u, s.stepsize,
            s.msActive, m, rest, trace⟩
      else
        StepOut.cont ⟨s.k + 1, trialLambda s, u,
          min (s.stepsize * stepGrowthFactor cfg newton_steps)
            cfg.lambda_stepsize_max,
          s.msActive, s.milestone, s.msRest, trace⟩

/-- Outcome of the part of `natural.py` before the `while True` loop (lines
48–71): the initial Newton solve (failure is re-raised: `fail`), the initial
callback, `k = 1`, `lambda_stepsize = lambda_stepsize0`, and the first
`next(milestones)`, whose `StopIteration` on an empty sequence is not caught
(`stopIter`). -/
inductive InitOut (V : Type) where
  | fail (k : ℕ)
  | stopIter (trace : List (ℕ × ℚ × V))
  | ready (s : NatState V)
deriving DecidableEq

/-- Lines 48–71 of `natural.py`.  The initial solve runs at `lmbda = lambda0`
from the caller's `u0`; on success `callback(0, lambda0, u)` is invoked, then
`k = 1` and `lambda_stepsize = lambda_stepsize0`; finally, if a milestone
sequence was given, its first element is consumed (raising `StopIteration`,
uncaught, when it is empty). -/
def naturalInit (P : Problem V) (cfg : NaturalConfig) (u0 : V) (lambda0 : ℚ)
    (milestones : Option (List ℚ)) : InitOut V :=
  match newton (fun u => P.f u lambda0)
      (fun u rhs => P.jacobian_solver u lambda0 rhs)
      P.norm2_r u0 cfg.newton_tol cfg.max_newton_steps with
  | Except.error m => InitOut.fail m
  | Except.ok (u, _) =>
    let trace := [(0, lambda0, u)]
    match milestones with
    | none => InitOut.ready ⟨1, lambda0, u, cfg.lambda_stepsize0, false, 0, [], trace⟩
    | some [] => InitOut.stopIter trace
    | some (m :: rest) =>
      InitOut.ready ⟨1, lambda0, u, cfg.lambda_stepsize0, true, m, rest, trace⟩

/-- Result of a run of `natural`: normal return (`ok`), the re-raised
`NewtonConvergenceError` of the initial solve (`initFail`), the uncaught
`StopIteration` on an empty milestone sequence (`stopIteration`), or exhaustion
of the step budget `fuel` of the model while the (potentially unbounded) Python
loop is still running (`outOfFuel`).  Each result carries the callback
invocations made. -/
inductive NaturalResult (V : Type) where
  | ok (trace : List (ℕ × ℚ × V))
  | initFail (k : ℕ)
  | stopIteration (trace : List (ℕ × ℚ × V))
  | outOfFuel (trace : List (ℕ × ℚ × V))
deriving DecidableEq

/-- The callback invocations carried by a `NaturalResult`. -/
def NaturalResult.trace : NaturalResult V → List (ℕ × ℚ × V)
  | NaturalResult.ok tr => tr
  | NaturalResult.initFail _ => []
  | NaturalResult.stopIteration tr => tr
  | NaturalResult.outOfFuel tr => tr

/-- The `while True` loop of `natural.py`, stepped by `naturalIter`; `fuel`
bounds the number of loop iterations of the model (the Python loop itself has
no such bound). -/
def naturalLoop (P : Problem V) (cfg : NaturalConfig) :
    ℕ → NatState V → NaturalResult V
  | 0, s => NaturalResult.outOfFuel s.trace
  | fuel + 1, s =>
    match naturalIter P cfg s with
    | StepOut.brk tr => NaturalResult.ok tr
    | StepOut.cont s2 => naturalLoop P cfg fuel s2

/-- The driver `natural(problem, u0, lambda0, callback, ...)` of `src/src/pacopy/natural.py`. -/
def natural (P : Problem V) (cfg : NaturalConfig) (u0 : V) (lambda0 : ℚ)
    (milestones : Option (List ℚ)) (fuel : ℕ) : NaturalResult V :=
  match naturalInit P cfg u0 lambda0 milestones with
  | InitOut.fail m => NaturalResult.initFail m
  | InitOut.stopIter tr => NaturalResult.stopIteration tr
  | InitOut.ready s => naturalLoop P cfg fuel s

/-- The state at the start of the `n`-th continuation step after state `s`
(`none` when the loop has left the `while` before completing `n` iterations). -/
def natReach (P : Problem V) (cfg : NaturalConfig) :
    ℕ → NatState V → Option (NatState V)
  | 0, s => some s
  | n + 1, s =>
    match naturalIter P cfg s with
    | StepOut.brk _ => none
    | StepOut.cont s2 => natReach P cfg n s2

/-- All callback invocations in `tr` received a `u` whose residual norm at the
`lmbda` passed alongside it is below `tol`. -/
def traceConverged (P : Problem V) (tol : ℚ) (tr : List (ℕ × ℚ × V)) : Prop :=
  ∀ e ∈ tr, P.norm2_r (P.f e.2.2 e.2.1) < tol

/-- The `lmbda` components of a callback trace are monotonically
non-decreasing. -/
def lambdaMono (tr : List (ℕ × ℚ × V)) : Prop :=
  tr.Chain' fun a b => a.2.1 ≤ b.2.1

end NaturalDriver

section ConcreteScenarios

/-- One-dimensional linear residual `u - 1`, used to exercise the Newton
solver concretely. -/
def f1 : ℚ → ℚ := fun u => u - 1

/-- Exact Jacobian solve for `f1` (the Jacobian is the identity). -/
def jac1 : ℚ → ℚ → ℚ := fun _ rhs => rhs

/-- Squared one-dimensional norm. -/
def norm1 : ℚ → ℚ := fun r => r * r

/-- One-dimensional linear problem `F(u, lmbda) = u - lmbda` with exact
Jacobian solve, as in spec §8. -/
def linProblem : Problem ℚ where
  f := fun u lm => u - lm
  jacobian_solver := fun _ _ rhs => rhs
  norm2_r := fun r => r * r
  df_dlmbda := fun _ _ => -1

/-- A problem that is linear (`u - lmbda`) everywhere except at
`lmbda = 1/2`, where the residual is constantly `1` and the oracle returns `0`,
so the Newton corrector fails exactly at trial parameter `1/2`. -/
def clampProblem : Problem ℚ where
  f := fun u lm => if lm = 1/2 then 1 else u - lm
  jacobian_solver := fun _ lm rhs => if lm = 1/2 then 0 else rhs
  norm2_r := fun r => r * r
  df_dlmbda := fun _ _ => 0

/-- Configuration for the milestone-clamp scenarios: initial step `3/10`,
step-size cap `10`, aggressiveness `2`, Newton budget `5`, tolerance `1/1000`,
at most one accepted continuation step, zero-order predictor. -/
def clampConfig : NaturalConfig :=
  ⟨3/10, 10, 2, 5, 1/1000, 1, false⟩

/-- Configuration whose initial step size `2` exceeds the configured maximum
step size `1`. -/
def bigStepConfig : NaturalConfig :=
  ⟨2, 1, 2, 5, 1/1000, 1, false⟩

/-- Configuration with step-growth aggressiveness `0`. -/
def flatGrowthConfig : NaturalConfig :=
  ⟨3/10, 10, 0, 5, 1/1000, 100, false⟩

/-- Configuration for the milestone-hit witness: initial step `3/10`, cap `10`,
aggressiveness `2`, Newton budget `5`, tolerance `1/1000`, step budget `100`,
zero-order predictor. -/
def hitConfig : NaturalConfig :=
  ⟨3/10, 10, 2, 5, 1/1000, 100, false⟩

end ConcreteScenarios

section NewtonTheorems

variable {V : Type} [Add V] [Neg V]

theorem newtonIter_succ (f : V → V) (jac : V → V → V) (n : ℕ) (u : V) :
    newtonIter f jac (n + 1) u = newtonIter f jac n (newtonStep f jac u) := rfl

theorem newtonLoop_error_iff (f : V → V) (jac : V → V → V) (nrm : V → ℚ)
    (tol : ℚ) :
    ∀ (fuel : ℕ) (u : V) (k m : ℕ),
      newtonLoop f jac nrm tol fuel u (f u) k = Except.error m ↔
        (m = k + fuel ∧ ∀ j ≤ fuel, ¬ nrm (f (newtonIter f jac j u)) < tol) := by
  intro fuel
  induction fuel with
  | zero =>
    intro u k m
    rw [newtonLoop]
    by_cases h : nrm (f u) < tol
    · simp only [if_pos h]
      constructor
      · intro hcontra; cases hcontra
      · rintro ⟨-, hall⟩
        exact absurd h (by simpa [newtonIter] using hall 0 le_rfl)
    · simp only [if_neg h]
      constructor
      · intro he
        injection he with he
        refine ⟨by omega, ?_⟩
        intro j hj
        interval_cases j
        simpa [newtonIter] using h
      · rintro ⟨hm, -⟩
        simp [hm]
  | succ fuel ih =>
    intro u k m
    rw [newtonLoop]
    by_cases h : nrm (f u) < tol
    · simp only [if_pos h]
      constructor
      · intro hcontra; cases hcontra
      · rintro ⟨-, hall⟩
        exact absurd h (by simpa [newtonIter] using hall 0 (Nat.zero_le _))
    · simp only [if_neg h]
      have hstep :
          newtonLoop f jac nrm tol fuel (u + jac u (-(f u)))
              (f (u + jac u (-(f u)))) (k + 1) =
            newtonLoop f jac nrm tol fuel (newtonStep f jac u)
              (f (newtonStep f jac u)) (k + 1) := rfl
      rw [hstep, ih (newtonStep f jac u) (k + 1) m]
      constructor
      · rintro ⟨hm, hall⟩
        refine ⟨by omega, ?_⟩
        intro j hj
        match j with
        | 0 => simpa [newtonIter] using h
        | j + 1 =>
          rw [newtonIter_succ]
          exact hall j (by omega)
      · rintro ⟨hm, hall⟩
        refine ⟨by omega, ?_⟩
        intro j hj
        rw [← newtonIter_succ]
        exact hall (j + 1) (by omega)

theorem newtonLoop_ok_spec (f : V → V) (jac : V → V → V) (nrm : V → ℚ)
    (tol : ℚ) :
    ∀ (fuel : ℕ) (u : V) (k : ℕ) (v : V) (m : ℕ),
      newtonLoop f jac nrm tol fuel u (f u) k = Except.ok (v, m) →
        k ≤ m ∧ m - k ≤ fuel ∧ v = newtonIter f jac (m - k) u ∧
          nrm (f v) < tol ∧
          ∀ j < m - k, ¬ nrm (f (newtonIter f jac j u)) < tol := by
  intro fuel
  induction fuel with
  | zero =>
    intro u k v m hok
    rw [newtonLoop] at hok
    by_cases h : nrm (f u) < tol
    · rw [if_pos h] at hok
      injection hok with hok
      injection hok with h1 h2
      subst h1; subst h2
      refine ⟨le_rfl, by omega, ?_, h, ?_⟩
      · simp [newtonIter]
      · intro j hj; omega
    · rw [if_neg h] at hok
      cases hok
  | succ fuel ih =>
    intro u k v m hok
    rw [newtonLoop] at hok
    by_cases h : nrm (f u) < tol
    · rw [if_pos h] at hok
      injection hok with hok
      injection hok with h1 h2
      subst h1; subst h2
      refine ⟨le_rfl, by omega, ?_, h, ?_⟩
      · simp [newtonIter]
      · intro j hj; omega
    · rw [if_neg h] at hok
      have hstep :
          newtonLoop f jac nrm tol fuel (u + jac u (-(f u)))
              (f (u + jac u (-(f u)))) (k + 1) =
            newtonLoop f jac nrm tol fuel (newtonStep f jac u)
              (f (newtonStep f jac u)) (k + 1) := rfl
      rw [hstep] at hok
      obtain ⟨hle, hfuel, hv, hconv, hmin⟩ := ih (newtonStep f jac u) (k + 1) v m hok
      have hmk : m - k = (m - (k + 1)) + 1 := by omega
      refine ⟨by omega, by omega, ?_, hconv, ?_⟩
      · rw [hmk, newtonIter_succ]; exact hv
      · intro j hj
        match j with
        | 0 => simpa [newtonIter] using h
        | j + 1 =>
          rw [newtonIter_succ]
          exact hmin j (by omega)

/-- Claim C1: for every successful call, the Newton solver returns the pair of
the converged vector (the exact Newton iterate at which convergence first
occurred) and the exact number of corrector iterations performed — `k` is the
least index whose iterate meets the tolerance, so it is neither merely the
vector nor an upper bound; in particular `k = 0` and `u = u0` when the initial
residual norm is already below `tol`. -/
theorem newton_ok_exact_count (f : V → V) (jac : V → V → V) (nrm : V → ℚ)
    (u0 : V) (tol : ℚ) (max_iter : ℕ) (u : V) (k : ℕ)
    (h : newton f jac nrm u0 tol max_iter = Except.ok (u, k)) :
    u = newtonIter f jac k u0
    ∧ nrm (f u) < tol
    ∧ (∀ j < k, ¬ nrm (f (newtonIter f jac j u0)) < tol)
    ∧ (nrm (f u0) < tol → u = u0 ∧ k = 0) := by
  obtain ⟨-, -, hv, hconv, hmin⟩ :=
    newtonLoop_ok_spec f jac nrm tol max_iter u0 0 u k h
  rw [Nat.sub_zero] at hv hmin
  refine ⟨hv, hconv, hmin, ?_⟩
  intro h0
  have hk : k = 0 := by
    by_contra hne
    exact hmin 0 (by omega) (by simpa [newtonIter] using h0)
  subst hk
  exact ⟨by simpa [newtonIter] using hv, rfl⟩

/-- Claim C1 witness: on the linear problem `f1(u) = u - 1` with exact Jacobian
solve from `u0 = 0`, the solver returns `(1, 1)` and the theorem's conclusions
hold there. -/
theorem newton_ok_exact_count_witness :
    (1 : ℚ) = newtonIter f1 jac1 1 0
    ∧ norm1 (f1 1) < 1/2
    ∧ (∀ j < 1, ¬ norm1 (f1 (newtonIter f1 jac1 j 0)) < 1/2)
    ∧ (norm1 (f1 0) < 1/2 → (1 : ℚ) = 0 ∧ 1 = 0) :=
  newton_ok_exact_count f1 jac1 norm1 0 (1/2) 5 1 1
    (by norm_num [newton, newtonLoop, f1, jac1, norm1])

/-- Claim C2: the Newton solver signals a convergence failure iff the budget
`max_iter` is exhausted with no iterate's residual norm below `tol`, and the
failure carries iteration count `max_iter`; with `max_iter = 0` on an
already-converged `u0` it returns `(u0, 0)` without failing; and when the final
permitted correction (the `max_iter`-th iterate) meets the tolerance the call
succeeds. -/
theorem newton_failure_characterization (f : V → V) (jac : V → V → V)
    (nrm : V → ℚ) (u0 : V) (tol : ℚ) (max_iter : ℕ) :
    (∀ m, newton f jac nrm u0 tol max_iter = Except.error m ↔
        (m = max_iter ∧ ∀ j ≤ max_iter, ¬ nrm (f (newtonIter f jac j u0)) < tol))
    ∧ (nrm (f u0) < tol → newton f jac nrm u0 tol 0 = Except.ok (u0, 0))
    ∧ (nrm (f (newtonIter f jac max_iter u0)) < tol →
        ∃ v k, newton f jac nrm u0 tol max_iter = Except.ok (v, k)) := by
  refine ⟨?_, ?_, ?_⟩
  · intro m
    have := newtonLoop_error_iff f jac nrm tol max_iter u0 0 m
    simpa [newton] using this
  · intro h0
    rw [newton, newtonLoop]
    simp [h0]
  · intro hconv
    rcases hok : newton f jac nrm u0 tol max_iter with m | p
    · have hall :=
        ((newtonLoop_error_iff f jac nrm tol max_iter u0 0 m).mp
          (by simpa [newton] using hok)).2
      exact absurd hconv (hall max_iter le_rfl)
    · obtain ⟨v, k⟩ := p
      exact ⟨v, k, rfl⟩

/-- Claim C2 witness: with `max_iter = 0` and the already-converged `u0 = 1`
the solver returns `(1, 0)`; on the never-converging constant residual the
failure carries exactly the budget `3`. -/
theorem newton_failure_characterization_witness :
    newton f1 jac1 norm1 1 (1/2) 0 = Except.ok (1, 0)
    ∧ newton (fun _ => (1 : ℚ)) jac1 norm1 0 (1/2) 3 = Except.error 3 :=
  ⟨(newton_failure_characterization f1 jac1 norm1 1 (1/2) 0).2.1
      (by norm_num [f1, norm1]),
    ((newton_failure_characterization (fun _ => (1 : ℚ)) jac1 norm1 0 (1/2)
        3).1 3).mpr
      ⟨rfl, by intro j hj; norm_num [norm1]⟩⟩

end NewtonTheorems

section PycontTheorems

variable {V : Type} [Add V] [Neg V] [Inhabited V]

theorem pycontLoop_frame (f : V → V) (jac : V → V → V) (nrm : V → ℚ)
    (tol : ℚ) :
    ∀ (fuel : ℕ) (cells : List V) (iu : ℕ) (fu : V) (k i : ℕ), i ≠ iu →
      ((pycontLoop f jac nrm tol fuel cells iu fu k).2)[i]? = cells[i]? := by
  intro fuel
  induction fuel with
  | zero => intro cells iu fu k i hne; rfl
  | succ fuel ih =>
    intro cells iu fu k i hne
    rw [pycontLoop]
    by_cases h : nrm fu < tol
    · rw [if_pos h]
    · rw [if_neg h]
      rw [ih _ iu _ _ i hne]
      exact List.getElem?_set_ne (fun he => hne he.symm)

/-- Claim C9: the `newton` of `src/pycont/newton.py` leaves the caller's array `u0`
unmodified: `u = u0.copy()` allocates a fresh cell (at index `cells.length`),
every in-place update `u += du` is applied to that copy, and after the call —
whether it returns the converged reference or raises — every pre-existing heap
cell, in particular `u0`'s cell `iu0`, holds exactly the values it held before
the call. -/
theorem pycont_newton_frame (f : V → V) (jac : V → V → V) (nrm : V → ℚ)
    (cells : List V) (iu0 : ℕ) (tol : ℚ) (max_iter : ℕ)
    (h : iu0 < cells.length) :
    ((pycontNewton f jac nrm cells iu0 tol max_iter).2)[iu0]? = cells[iu0]?
    ∧ ∀ i < cells.length,
        ((pycontNewton f jac nrm cells iu0 tol max_iter).2)[i]? = cells[i]? := by
  have key : ∀ i < cells.length,
      ((pycontNewton f jac nrm cells iu0 tol max_iter).2)[i]? = cells[i]? := by
    intro i hi
    rw [pycontNewton]
    rw [pycontLoop_frame f jac nrm tol max_iter _ cells.length _ 0 i
      (Nat.ne_of_lt hi)]
    exact List.getElem?_append_left hi
  exact ⟨key iu0 h, key⟩

/-- Claim C9 witness: on the heap `[5]` holding the single array `u0 = 5`, a
run of the pycont solver (which converges to `1` in the fresh cell `1`) leaves
cell `0` holding `5`. -/
theorem pycont_newton_frame_witness :
    ((pycontNewton f1 jac1 norm1 [(5 : ℚ)] 0 (1/2) 3).2)[0]? =
        ([(5 : ℚ)] : List ℚ)[0]?
    ∧ ∀ i < ([(5 : ℚ)] : List ℚ).length,
        ((pycontNewton f1 jac1 norm1 [(5 : ℚ)] 0 (1/2) 3).2)[i]? =
          ([(5 : ℚ)] : List ℚ)[i]? :=
  pycont_newton_frame f1 jac1 norm1 [(5 : ℚ)] 0 (1/2) 3 (by simp)

end PycontTheorems

section NaturalTheorems

variable {V : Type} [Add V] [Neg V] [SMul ℚ V]

/-- Claim C10: calling the driver with a non-`None` but empty milestones
sequence solves the initial point, invokes the initial callback, and then
raises an uncaught `StopIteration` from `milestone = next(milestones)` —
the empty sequence is neither treated as exhausted nor as absent. -/
theorem natural_empty_milestones_stopIteration (P : Problem V)
    (cfg : NaturalConfig) (u0 : V) (lambda0 : ℚ) (fuel : ℕ) (u : V) (k : ℕ)
    (h : newton (fun v => P.f v lambda0)
        (fun v rhs => P.jacobian_solver v lambda0 rhs)
        P.norm2_r u0 cfg.newton_tol cfg.max_newton_steps = Except.ok (u, k)) :
    natural P cfg u0 lambda0 (some []) fuel =
      NaturalResult.stopIteration [(0, lambda0, u)] := by
  simp [natural, naturalInit, h]

/-- Claim C10 witness: on the linear problem from `u0 = 0`, `lambda0 = 0`,
the driver with milestones `[]` stops with the uncaught `StopIteration` after
exactly the initial callback `(0, 0, 0)`. -/
theorem natural_empty_milestones_stopIteration_witness :
    natural linProblem clampConfig 0 0 (some []) 3 =
      NaturalResult.stopIteration [(0, 0, 0)] :=
  natural_empty_milestones_stopIteration linProblem clampConfig 0 0 3 0 0
    (by norm_num [newton, newtonLoop, linProblem, clampConfig])

theorem naturalIter_brk_cases (P : Problem V) (cfg : NaturalConfig)
    (s : NatState V) (tr : List (ℕ × ℚ × V))
    (h : naturalIter P cfg s = StepOut.brk tr) :
    ((s.k : ℚ) > cfg.max_steps ∧ tr = s.trace)
    ∨ (¬((s.k : ℚ) > cfg.max_steps) ∧
        ∃ u n, correctorResult P cfg s = Except.ok (u, n) ∧
          s.msActive = true ∧ trialLambda s = s.milestone ∧ s.msRest = [] ∧
          tr = s.trace ++ [(s.k, trialLambda s, u)]) := by
  rw [naturalIter] at h
  by_cases hk : (s.k : ℚ) > cfg.max_steps
  · rw [if_pos hk] at h
    injection h with h
    exact Or.inl ⟨hk, h.symm⟩
  · rw [if_neg hk] at h
    rcases hcr : correctorResult P cfg s with m | p
    · rw [hcr] at h
      cases h
    · obtain ⟨u, n⟩ := p
      rw [hcr] at h
      simp only at h
      by_cases hms : s.msActive ∧ trialLambda s = s.milestone
      · rw [if_pos hms] at h
        rcases hrest : s.msRest with - | ⟨m, rest⟩
        · rw [hrest] at h
          injection h with h
          exact Or.inr ⟨hk, u, n, rfl, by simpa using hms.1, hms.2, rfl, h.symm⟩
        · rw [hrest] at h
          cases h
      · rw [if_neg hms] at h
        cases h

theorem naturalIter_cont_cases (P : Problem V) (cfg : NaturalConfig)
    (s s' : NatState V) (h : naturalIter P cfg s = StepOut.cont s') :
    ¬((s.k : ℚ) > cfg.max_steps) ∧
    ((∃ m, correctorResult P cfg s = Except.error m ∧
        s' = ⟨s.k, trialLambda s - s.stepsize, s.u, s.stepsize / 2,
          s.msActive, s.milestone, s.msRest, s.trace⟩)
     ∨ (∃ u n, correctorResult P cfg s = Except.ok (u, n) ∧
         ((∃ m rest, s.msActive = true ∧ trialLambda s = s.milestone ∧
             s.msRest = m :: rest ∧
             s' = ⟨s.k + 1, trialLambda s, u, s.stepsize, s.msActive, m, rest,
               s.trace ++ [(s.k, trialLambda s, u)]⟩)
          ∨ (¬(s.msActive = true ∧ trialLambda s = s.milestone) ∧
              s' = ⟨s.k + 1, trialLambda s, u,
                min (s.stepsize * stepGrowthFactor cfg n)
                  cfg.lambda_stepsize_max,
                s.msActive, s.milestone, s.msRest,
                s.trace ++ [(s.k, trialLambda s, u)]⟩)))) := by
  rw [naturalIter] at h
  by_cases hk : (s.k : ℚ) > cfg.max_steps
  · rw [if_pos hk] at h
    cases h
  · rw [if_neg hk] at h
    refine ⟨hk, ?_⟩
    rcases hcr : correctorResult P cfg s with m | p
    · rw [hcr] at h
      injection h with h
      exact Or.inl ⟨m, rfl, h.symm⟩
    · obtain ⟨u, n⟩ := p
      rw [hcr] at h
      simp only at h
      by_cases hms : s.msActive ∧ trialLambda s = s.milestone
      · rw [if_pos hms] at h
        rcases hrest : s.msRest with - | ⟨m, rest⟩
        · rw [hrest] at h
          cases h
        · rw [hrest] at h
          injection h with h
          exact Or.inr ⟨u, n, rfl,
            Or.inl ⟨m, rest, by simpa using hms.1, hms.2, rfl, h.symm⟩⟩
      · rw [if_neg hms] at h
        injection h with h
        refine Or.inr ⟨u, n, rfl, Or.inr ⟨?_, h.symm⟩⟩
        intro hc
        exact hms ⟨by simp [hc.1], hc.2⟩

theorem naturalIter_error_branch (P : Problem V) (cfg : NaturalConfig)
    (s : NatState V) (m : ℕ) (hk : ¬((s.k : ℚ) > cfg.max_steps))
    (herr : correctorResult P cfg s = Except.error m) :
    naturalIter P cfg s = StepOut.cont ⟨s.k, trialLambda s - s.stepsize, s.u,
      s.stepsize / 2, s.msActive, s.milestone, s.msRest, s.trace⟩ := by
  rw [naturalIter, if_neg hk, herr]

/-- Claim C6 (amended): whenever the corrector fails at a trial `λ` after the
initial point, the driver keeps the last accepted `u`, sets `λ` to the failed
trial value minus the full step size — which equals the last accepted `λ`
exactly when the trial was not clamped to a milestone — halves the step size,
does not advance the step index and does not invoke the callback; for a
positive step size the next trial `λ` is strictly smaller than the failed
trial `λ`. -/
theorem natural_backoff_behavior (P : Problem V) (cfg : NaturalConfig)
    (s : NatState V) (m : ℕ) (hk : ¬((s.k : ℚ) > cfg.max_steps))
    (herr : correctorResult P cfg s = Except.error m) :
    naturalIter P cfg s = StepOut.cont ⟨s.k, trialLambda s - s.stepsize, s.u,
      s.stepsize / 2, s.msActive, s.milestone, s.msRest, s.trace⟩
    ∧ (0 < s.stepsize →
        trialLambda ⟨s.k, trialLambda s - s.stepsize, s.u, s.stepsize / 2,
          s.msActive, s.milestone, s.msRest, s.trace⟩ < trialLambda s)
    ∧ (s.msActive = false ∨ s.lmbda + s.stepsize ≤ s.milestone →
        trialLambda s - s.stepsize = s.lmbda) := by
  refine ⟨naturalIter_error_branch P cfg s m hk herr, ?_, ?_⟩
  · intro hpos
    have hlt : trialLambda s - s.stepsize + s.stepsize / 2 < trialLambda s := by
      linarith
    by_cases hms : s.msActive
    · simpa [trialLambda, hms] using
        lt_of_le_of_lt (min_le_left (trialLambda s - s.stepsize + s.stepsize / 2)
          s.milestone) hlt
    · simpa [trialLambda, hms] using hlt
  · intro hc
    by_cases hms : s.msActive
    · have hle : s.lmbda + s.stepsize ≤ s.milestone := by
        rcases hc with hfalse | hle
        · rw [hfalse] at hms; cases hms
        · exact hle
      simp [trialLambda, hms, min_eq_left hle]
    · simp [trialLambda, hms]

/-- Claim C6 counterexample: in the milestone-clamp run (last accepted point
`(u, λ) = (2/5, 2/5)`, step size `3/10`, pending milestone `1/2`), the
corrector fails at the clamped trial `λ = 1/2` and the driver moves to
`λ = 1/2 - 3/10 = 1/5`, which is not the last accepted `λ = 2/5` — it does not
revert to the last accepted `(u, λ)`. -/
theorem natural_backoff_counterexample :
    naturalInit clampProblem clampConfig 0 (2/5) (some [1/2]) =
      InitOut.ready ⟨1, 2/5, 2/5, 3/10, true, 1/2, [], [(0, 2/5, 2/5)]⟩
    ∧ naturalIter clampProblem clampConfig
        ⟨1, 2/5, 2/5, 3/10, true, 1/2, [], [(0, 2/5, 2/5)]⟩ =
      StepOut.cont ⟨1, 1/5, 2/5, 3/20, true, 1/2, [], [(0, 2/5, 2/5)]⟩
    ∧ ¬((1 : ℚ)/5 = 2/5) := by
  refine ⟨?_, ?_, by norm_num⟩
  · norm_num [naturalInit, newton, newtonLoop, clampProblem, clampConfig]
  · norm_num [naturalIter, correctorResult, trialLambda, predictorGuess,
      newton, newtonLoop, clampProblem, clampConfig]

/-- Claim C6 witness: the amended backoff behaviour instantiated on the
milestone-clamp run at the failed clamped trial `λ = 1/2`. -/
theorem natural_backoff_behavior_witness :
    naturalIter clampProblem clampConfig
        ⟨1, 2/5, 2/5, 3/10, true, 1/2, [], [(0, 2/5, 2/5)]⟩ =
      StepOut.cont ⟨1, trialLambda ⟨1, 2/5, 2/5, 3/10, true, 1/2, [],
          [(0, 2/5, 2/5)]⟩ - 3/10, 2/5, 3/10 / 2, true, 1/2, [],
        [(0, 2/5, 2/5)]⟩
    ∧ (0 < (3 : ℚ)/10 →
        trialLambda ⟨1, trialLambda ⟨1, 2/5, 2/5, 3/10, true, 1/2, [],
            [(0, 2/5, 2/5)]⟩ - 3/10, 2/5, 3/10 / 2, true, 1/2, [],
          [(0, 2/5, 2/5)]⟩ <
          trialLambda ⟨1, 2/5, 2/5, 3/10, true, 1/2, [], [(0, 2/5, 2/5)]⟩)
    ∧ ((true = false ∨ (2 : ℚ)/5 + 3/10 ≤ 1/2) →
        trialLambda ⟨1, 2/5, 2/5, 3/10, true, 1/2, [], [(0, 2/5, 2/5)]⟩ -
          3/10 = 2/5) :=
  natural_backoff_behavior clampProblem clampConfig
    ⟨1, 2/5, 2/5, 3/10, true, 1/2, [], [(0, 2/5, 2/5)]⟩ 5
    (by norm_num [clampConfig])
    (by norm_num [correctorResult, trialLambda, predictorGuess, newton,
      newtonLoop, clampProblem, clampConfig])

/-- Claim C7: with an active milestone sequence, the candidate `λ` of every
step is clamped to the pending milestone (so no accepted step can exceed it
while it is pending); on an accepted step landing exactly on the pending
milestone the driver either advances to the next milestone (leaving the step
size untouched) or, when the sequence is exhausted, leaves the loop and
terminates normally; on an accepted step short of the milestone the pending
milestone is kept unchanged. -/
theorem natural_milestone_clamp (P : Problem V) (cfg : NaturalConfig)
    (s : NatState V) (hms : s.msActive = true)
    (hk : ¬((s.k : ℚ) > cfg.max_steps)) :
    trialLambda s ≤ s.milestone
    ∧ ∀ u n, correctorResult P cfg s = Except.ok (u, n) →
        ((trialLambda s = s.milestone →
          (s.msRest = [] → ∀ fuel, naturalLoop P cfg (fuel + 1) s =
              NaturalResult.ok (s.trace ++ [(s.k, trialLambda s, u)]))
          ∧ ∀ m rest, s.msRest = m :: rest →
              naturalIter P cfg s = StepOut.cont ⟨s.k + 1, trialLambda s, u,
                s.stepsize, s.msActive, m, rest,
                s.trace ++ [(s.k, trialLambda s, u)]⟩)
        ∧ (¬(trialLambda s = s.milestone) →
            naturalIter P cfg s = StepOut.cont ⟨s.k + 1, trialLambda s, u,
              min (s.stepsize * stepGrowthFactor cfg n)
                cfg.lambda_stepsize_max,
              s.msActive, s.milestone, s.msRest,
              s.trace ++ [(s.k, trialLambda s, u)]⟩)) := by
  constructor
  · simp only [trialLambda, hms]
    exact min_le_right _ _
  · intro u n hok
    constructor
    · intro heq
      constructor
      · intro hrest fuel
        have hb : naturalIter P cfg s =
            StepOut.brk (s.trace ++ [(s.k, trialLambda s, u)]) := by
          rw [naturalIter, if_neg hk, hok]
          simp [hms, heq, hrest]
        simp [naturalLoop, hb]
      · intro m rest hrest
        rw [naturalIter, if_neg hk, hok]
        simp [hms, heq, hrest]
    · intro hne
      rw [naturalIter, if_neg hk, hok]
      simp [hms, hne]

/-- Claim C7 witness: from the accepted point `(2/5, 2/5)` with step `3/10` and
pending final milestone `1/2`, the candidate is clamped to `1/2`, the corrector
succeeds there, and the loop terminates normally with the accepted trace ending
at `λ = 1/2` exactly. -/
theorem natural_milestone_clamp_witness :
    trialLambda (⟨1, 2/5, 2/5, 3/10, true, 1/2, [], [(0, 2/5, 2/5)]⟩ :
        NatState ℚ) ≤ 1/2
    ∧ naturalLoop linProblem hitConfig 1
        ⟨1, 2/5, 2/5, 3/10, true, 1/2, [], [(0, 2/5, 2/5)]⟩ =
      NaturalResult.ok [(0, 2/5, 2/5), (1, 1/2, 1/2)] := by
  have h := natural_milestone_clamp linProblem hitConfig
    ⟨1, 2/5, 2/5, 3/10, true, 1/2, [], [(0, 2/5, 2/5)]⟩ rfl
    (by norm_num [hitConfig])
  refine ⟨h.1, ?_⟩
  have h2 := ((h.2 (1/2) 1
      (by norm_num [correctorResult, trialLambda, predictorGuess, newton,
        newtonLoop, linProblem, hitConfig])).1
    (by norm_num [trialLambda])).1 rfl 0
  norm_num [trialLambda, min_def] at h2 ⊢
  exact h2

/-- Claim C8 (amended): after an accepted step that does not land on a pending
milestone the new step size is exactly
`min (Δλ · (1 + a · ((max_newton_steps − n) / (max_newton_steps − 1))²),
lambda_stepsize_max)` with `n` the number of Newton iterations the corrector
used; for a strictly positive aggressiveness `a` (e.g. the default `2.0`) the
growth factor is strictly decreasing in `n` on `n ≤ max_newton_steps`, while
for `a = 0` it is constant, so strict decrease holds only under `0 < a`. -/
theorem natural_step_growth (P : Problem V) (cfg : NaturalConfig)
    (s : NatState V) (u : V) (n : ℕ) (h2 : 2 ≤ cfg.max_newton_steps)
    (hk : ¬((s.k : ℚ) > cfg.max_steps))
    (hok : correctorResult P cfg s = Except.ok (u, n))
    (hnm : ¬(s.msActive = true ∧ trialLambda s = s.milestone)) :
    naturalIter P cfg s = StepOut.cont ⟨s.k + 1, trialLambda s, u,
      min (s.stepsize * stepGrowthFactor cfg n) cfg.lambda_stepsize_max,
      s.msActive, s.milestone, s.msRest, s.trace ++ [(s.k, trialLambda s, u)]⟩
    ∧ (0 < cfg.lambda_stepsize_aggressiveness →
        ∀ n1 n2 : ℕ, n1 < n2 → n2 ≤ cfg.max_newton_steps →
          stepGrowthFactor cfg n2 < stepGrowthFactor cfg n1) := by
  constructor
  · rw [naturalIter, if_neg hk, hok]
    have hnm2 : ¬(s.msActive = true ∧ trialLambda s = s.milestone) := hnm
    simp only []
    rw [if_neg (by simpa using hnm2)]
  · intro ha n1 n2 h12 h2M
    have hM : (2 : ℚ) ≤ (cfg.max_newton_steps : ℚ) := by exact_mod_cast h2
    have hden : (0 : ℚ) < (cfg.max_newton_steps : ℚ) - 1 := by linarith
    have hn2 : (n2 : ℚ) ≤ (cfg.max_newton_steps : ℚ) := by exact_mod_cast h2M
    have h12q : (n1 : ℚ) < (n2 : ℚ) := by exact_mod_cast h12
    have hnum : (0 : ℚ) ≤ (cfg.max_newton_steps : ℚ) - (n2 : ℚ) := by linarith
    have hq : ((cfg.max_newton_steps : ℚ) - (n2 : ℚ)) /
        ((cfg.max_newton_steps : ℚ) - 1) <
        ((cfg.max_newton_steps : ℚ) - (n1 : ℚ)) /
          ((cfg.max_newton_steps : ℚ) - 1) := by
      apply div_lt_div_of_pos_right ?_ hden
      linarith
    have hq0 : (0 : ℚ) ≤ ((cfg.max_newton_steps : ℚ) - (n2 : ℚ)) /
        ((cfg.max_newton_steps : ℚ) - 1) := div_nonneg hnum (le_of_lt hden)
    have hsq : (((cfg.max_newton_steps : ℚ) - (n2 : ℚ)) /
        ((cfg.max_newton_steps : ℚ) - 1)) ^ 2 <
        (((cfg.max_newton_steps : ℚ) - (n1 : ℚ)) /
          ((cfg.max_newton_steps : ℚ) - 1)) ^ 2 :=
      pow_lt_pow_left₀ hq hq0 (by norm_num)
    have := mul_lt_mul_of_pos_left hsq ha
    simp only [stepGrowthFactor]
    linarith

/-- Claim C8 counterexample: with configured aggressiveness `0`
(`flatGrowthConfig`) the growth factor equals `1` at both `n = 1` and `n = 2`
(with `max_newton_steps = 5 ≥ 2`), so it is not strictly decreasing in `n`. -/
theorem natural_step_growth_counterexample :
    stepGrowthFactor flatGrowthConfig 1 = 1
    ∧ stepGrowthFactor flatGrowthConfig 2 = 1
    ∧ ¬ stepGrowthFactor flatGrowthConfig 2 < stepGrowthFactor flatGrowthConfig 1 := by
  norm_num [stepGrowthFactor, flatGrowthConfig]

/-- Claim C8 witness: the growth rule instantiated on the linear problem after
an accepted non-milestone step whose corrector used `n = 1` of the `5`
permitted iterations; the strict-decrease part is available since the
configured aggressiveness `2` is positive. -/
theorem natural_step_growth_witness :
    naturalIter linProblem hitConfig
        ⟨1, 0, 0, 3/10, false, 0, [], [(0, 0, 0)]⟩ =
      StepOut.cont ⟨1 + 1,
        trialLambda (⟨1, 0, 0, 3/10, false, 0, [], [(0, 0, 0)]⟩ : NatState ℚ),
        3/10, min ((3 : ℚ)/10 * stepGrowthFactor hitConfig 1)
          hitConfig.lambda_stepsize_max,
        false, 0, [],
        [(0, 0, 0)] ++ [(1,
          trialLambda (⟨1, 0, 0, 3/10, false, 0, [], [(0, 0, 0)]⟩ : NatState ℚ),
          3/10)]⟩
    ∧ (0 < hitConfig.lambda_stepsize_aggressiveness →
        ∀ n1 n2 : ℕ, n1 < n2 → n2 ≤ hitConfig.max_newton_steps →
          stepGrowthFactor hitConfig n2 < stepGrowthFactor hitConfig n1) :=
  natural_step_growth linProblem hitConfig
    ⟨1, 0, 0, 3/10, false, 0, [], [(0, 0, 0)]⟩ (3/10) 1
    (by norm_num [hitConfig]) (by norm_num [hitConfig])
    (by norm_num [correctorResult, trialLambda, predictorGuess, newton,
      newtonLoop, linProblem, hitConfig])
    (by simp)

theorem trialLambda_of_inactive (s : NatState V) (h : s.msActive = false) :
    trialLambda s = s.lmbda + s.stepsize := by
  simp [trialLambda, h]

theorem correctorResult_ok_converged (P : Problem V) (cfg : NaturalConfig)
    (s : NatState V) (u : V) (n : ℕ)
    (hok : correctorResult P cfg s = Except.ok (u, n)) :
    P.norm2_r (P.f u (trialLambda s)) < cfg.newton_tol := by
  rw [correctorResult, newton] at hok
  exact (newtonLoop_ok_spec (fun v => P.f v (trialLambda s))
    (fun v rhs => P.jacobian_solver v (trialLambda s) rhs) P.norm2_r
    cfg.newton_tol cfg.max_newton_steps (predictorGuess P cfg s) 0 u n
    hok).2.2.2.1

theorem naturalInit_ready_spec (P : Problem V) (cfg : NaturalConfig) (u0 : V)
    (lambda0 : ℚ) (ms : Option (List ℚ)) (s : NatState V)
    (h : naturalInit P cfg u0 lambda0 ms = InitOut.ready s) :
    ∃ u k, newton (fun v => P.f v lambda0)
        (fun v rhs => P.jacobian_solver v lambda0 rhs)
        P.norm2_r u0 cfg.newton_tol cfg.max_newton_steps = Except.ok (u, k)
      ∧ s.k = 1 ∧ s.lmbda = lambda0 ∧ s.u = u
      ∧ s.stepsize = cfg.lambda_stepsize0 ∧ s.trace = [(0, lambda0, u)]
      ∧ ((ms = none ∧ s.msActive = false)
         ∨ ∃ m rest, ms = some (m :: rest) ∧ s.msActive = true
             ∧ s.milestone = m ∧ s.msRest = rest) := by
  rw [naturalInit] at h
  rcases hok : newton (fun v => P.f v lambda0)
      (fun v rhs => P.jacobian_solver v lambda0 rhs)
      P.norm2_r u0 cfg.newton_tol cfg.max_newton_steps with m | p
  · rw [hok] at h; cases h
  · obtain ⟨u, k⟩ := p
    rw [hok] at h
    rcases ms with - | mss
    · simp only at h
      injection h with h
      subst h
      exact ⟨u, k, rfl, rfl, rfl, rfl, rfl, rfl, Or.inl ⟨rfl, rfl⟩⟩
    · rcases mss with - | ⟨m, rest⟩
      · simp only at h; cases h
      · simp only at h
        injection h with h
        subst h
        exact ⟨u, k, rfl, rfl, rfl, rfl, rfl, rfl,
          Or.inr ⟨m, rest, rfl, rfl, rfl, rfl⟩⟩

theorem naturalInit_stopIter_spec (P : Problem V) (cfg : NaturalConfig)
    (u0 : V) (lambda0 : ℚ) (ms : Option (List ℚ))
    (tr : List (ℕ × ℚ × V))
    (h : naturalInit P cfg u0 lambda0 ms = InitOut.stopIter tr) :
    ∃ u k, newton (fun v => P.f v lambda0)
        (fun v rhs => P.jacobian_solver v lambda0 rhs)
        P.norm2_r u0 cfg.newton_tol cfg.max_newton_steps = Except.ok (u, k)
      ∧ tr = [(0, lambda0, u)] := by
  rw [naturalInit] at h
  rcases hok : newton (fun v => P.f v lambda0)
      (fun v rhs => P.jacobian_solver v lambda0 rhs)
      P.norm2_r u0 cfg.newton_tol cfg.max_newton_steps with m | p
  · rw [hok] at h; cases h
  · obtain ⟨u, k⟩ := p
    rw [hok] at h
    rcases ms with - | mss
    · simp only at h; cases h
    · rcases mss with - | ⟨m, rest⟩
      · simp only at h
        injection h with h
        exact ⟨u, k, rfl, h.symm⟩
      · simp only at h; cases h

theorem naturalLoop_traceConverged (P : Problem V) (cfg : NaturalConfig) :
    ∀ (fuel : ℕ) (s : NatState V), traceConverged P cfg.newton_tol s.trace →
      traceConverged P cfg.newton_tol ((naturalLoop P cfg fuel s).trace) := by
  intro fuel
  induction fuel with
  | zero =>
    intro s h
    simpa [naturalLoop, NaturalResult.trace] using h
  | succ fuel ih =>
    intro s h
    rcases hit : naturalIter P cfg s with tr | s2
    · rcases naturalIter_brk_cases P cfg s tr hit with ⟨-, htr⟩ |
        ⟨-, u, n, hok, -, -, -, htr⟩
      · subst htr
        simpa [naturalLoop, hit, NaturalResult.trace] using h
      · subst htr
        have hc := correctorResult_ok_converged P cfg s u n hok
        simp only [naturalLoop, hit, NaturalResult.trace]
        intro e he
        rcases List.mem_append.mp he with he2 | he2
        · exact h e he2
        · rw [List.mem_singleton] at he2
          subst he2
          exact hc
    · have hcc := naturalIter_cont_cases P cfg s s2 hit
      have h2 : traceConverged P cfg.newton_tol s2.trace := by
        rcases hcc.2 with ⟨m, -, hs⟩ | ⟨u, n, hok, hcase⟩
        · subst hs; exact h
        · have hc := correctorResult_ok_converged P cfg s u n hok
          rcases hcase with ⟨m, rest, -, -, -, hs⟩ | ⟨-, hs⟩
          · subst hs
            intro e he
            have he3 : e ∈ s.trace ∨ e = (s.k, trialLambda s, u) := by
              simpa using he
            rcases he3 with he2 | he2
            · exact h e he2
            · subst he2; exact hc
          · subst hs
            intro e he
            have he3 : e ∈ s.trace ∨ e = (s.k, trialLambda s, u) := by
              simpa using he
            rcases he3 with he2 | he2
            · exact h e he2
            · subst he2; exact hc
      simpa [naturalLoop, hit] using ih s2 h2

/-- Claim C3 (amended): in every run, every callback invocation
`(step, λ, u)` — including the initial one — receives a `u` whose residual norm
at that `λ` is below `newton_tol`; and the start-of-step invariant "the stored
`u` is a converged Newton root of `F(·, λ)` for the current `λ`" is preserved by
every loop iteration that is not a corrector failure at a milestone-clamped
trial.  (After a failure at a clamped trial the code subtracts the full step
size from the clamped value, so the invariant can break exactly there.) -/
theorem natural_callback_converged (P : Problem V) (cfg : NaturalConfig) :
    (∀ (u0 : V) (lambda0 : ℚ) (ms : Option (List ℚ)) (fuel : ℕ),
        traceConverged P cfg.newton_tol
          ((natural P cfg u0 lambda0 ms fuel).trace))
    ∧ ∀ (s s2 : NatState V),
        P.norm2_r (P.f s.u s.lmbda) < cfg.newton_tol →
        naturalIter P cfg s = StepOut.cont s2 →
        (∀ m, correctorResult P cfg s = Except.error m →
          trialLambda s = s.lmbda + s.stepsize) →
        P.norm2_r (P.f s2.u s2.lmbda) < cfg.newton_tol := by
  constructor
  · intro u0 lambda0 ms fuel
    rw [natural]
    rcases hi : naturalInit P cfg u0 lambda0 ms with m | tr | s
    · intro e he
      simp [NaturalResult.trace] at he
    · obtain ⟨u, k, hok, htr⟩ :=
        naturalInit_stopIter_spec P cfg u0 lambda0 ms tr hi
      subst htr
      intro e he
      rw [NaturalResult.trace, List.mem_singleton] at he
      subst he
      rw [newton] at hok
      exact (newtonLoop_ok_spec (fun v => P.f v lambda0)
        (fun v rhs => P.jacobian_solver v lambda0 rhs) P.norm2_r
        cfg.newton_tol cfg.max_newton_steps u0 0 u k hok).2.2.2.1
    · obtain ⟨u, k, hok, -, -, -, -, htr, -⟩ :=
        naturalInit_ready_spec P cfg u0 lambda0 ms s hi
      apply naturalLoop_traceConverged
      rw [htr]
      intro e he
      rw [List.mem_singleton] at he
      subst he
      rw [newton] at hok
      exact (newtonLoop_ok_spec (fun v => P.f v lambda0)
        (fun v rhs => P.jacobian_solver v lambda0 rhs) P.norm2_r
        cfg.newton_tol cfg.max_newton_steps u0 0 u k hok).2.2.2.1
  · intro s s2 hinv hit hnoclamp
    rcases (naturalIter_cont_cases P cfg s s2 hit).2 with
      ⟨m, herr, hs⟩ | ⟨u, n, hok, hcase2⟩
    · subst hs
      have heq : trialLambda s - s.stepsize = s.lmbda := by
        rw [hnoclamp m herr]; ring
      simpa [heq] using hinv
    · have hc := correctorResult_ok_converged P cfg s u n hok
      rcases hcase2 with ⟨m, rest, -, -, -, hs⟩ | ⟨-, hs⟩
      · subst hs; exact hc
      · subst hs; exact hc

/-- Claim C3 counterexample: in the milestone-clamp run started at
`λ0 = 2/5`, after the corrector failure at the clamped trial `λ = 1/2`, the
next continuation step starts with stored `λ = 1/5` while `u = 2/5` is the root
of `F(·, 2/5)`: the residual norm of `(u, λ) = (2/5, 1/5)` is `1/25`, not below
`newton_tol = 1/1000`, so at the start of that step `u` is not a converged
Newton root of `F(·, λ)` for the current `λ`. -/
theorem natural_invariant_counterexample :
    naturalInit clampProblem clampConfig 0 (2/5) (some [1/2]) =
      InitOut.ready ⟨1, 2/5, 2/5, 3/10, true, 1/2, [], [(0, 2/5, 2/5)]⟩
    ∧ natReach clampProblem clampConfig 1
        ⟨1, 2/5, 2/5, 3/10, true, 1/2, [], [(0, 2/5, 2/5)]⟩ =
      some ⟨1, 1/5, 2/5, 3/20, true, 1/2, [], [(0, 2/5, 2/5)]⟩
    ∧ ¬(clampProblem.norm2_r (clampProblem.f (2/5) (1/5)) <
        clampConfig.newton_tol) := by
  refine ⟨?_, ?_, by norm_num [clampProblem, clampConfig]⟩
  · norm_num [naturalInit, newton, newtonLoop, clampProblem, clampConfig]
  · norm_num [natReach, naturalIter, correctorResult, trialLambda,
      predictorGuess, newton, newtonLoop, clampProblem, clampConfig]

/-- Claim C3 witness: the amended invariant applied on the linear problem to
the accepted first step (converged start `(u, λ) = (0, 0)`, accepted next state
`(3/10, 3/10)`), with the no-clamped-failure hypothesis discharged since the
corrector succeeds. -/
theorem natural_callback_converged_witness :
    linProblem.norm2_r (linProblem.f
        (⟨2, 3/10, 3/10, 9/10, false, 0, [], [(0, 0, 0), (1, 3/10, 3/10)]⟩ :
          NatState ℚ).u
        (⟨2, 3/10, 3/10, 9/10, false, 0, [], [(0, 0, 0), (1, 3/10, 3/10)]⟩ :
          NatState ℚ).lmbda) < hitConfig.newton_tol :=
  (natural_callback_converged linProblem hitConfig).2
    ⟨1, 0, 0, 3/10, false, 0, [], [(0, 0, 0)]⟩
    ⟨2, 3/10, 3/10, 9/10, false, 0, [], [(0, 0, 0), (1, 3/10, 3/10)]⟩
    (by norm_num [linProblem, hitConfig])
    (by norm_num [naturalIter, correctorResult, trialLambda, predictorGuess,
      stepGrowthFactor, newton, newtonLoop, linProblem, hitConfig])
    (by
      intro m hm
      norm_num [correctorResult, trialLambda, predictorGuess, newton,
        newtonLoop, linProblem, hitConfig] at hm
      exact Except.noConfusion hm)

theorem stepGrowthFactor_ge_one (cfg : NaturalConfig)
    (haggr : 0 ≤ cfg.lambda_stepsize_aggressiveness) (n : ℕ) :
    1 ≤ stepGrowthFactor cfg n := by
  have h := mul_nonneg haggr
    (sq_nonneg (((cfg.max_newton_steps : ℚ) - (n : ℚ)) /
      ((cfg.max_newton_steps : ℚ) - 1)))
  simp only [stepGrowthFactor]
  nlinarith [h]

theorem naturalIter_stepsize_bounds (P : Problem V) (cfg : NaturalConfig)
    (s s2 : NatState V) (haggr : 0 ≤ cfg.lambda_stepsize_aggressiveness)
    (hit : naturalIter P cfg s = StepOut.cont s2)
    (hpos : 0 < s.stepsize) (hle : s.stepsize ≤ cfg.lambda_stepsize_max) :
    0 < s2.stepsize ∧ s2.stepsize ≤ cfg.lambda_stepsize_max := by
  rcases (naturalIter_cont_cases P cfg s s2 hit).2 with
    ⟨m, -, hs⟩ | ⟨u, n, -, hcase2⟩
  · subst hs
    exact ⟨half_pos hpos, le_trans (by linarith) hle⟩
  · rcases hcase2 with ⟨m, rest, -, -, -, hs⟩ | ⟨-, hs⟩
    · subst hs; exact ⟨hpos, hle⟩
    · subst hs
      have hmax0 : 0 < cfg.lambda_stepsize_max := lt_of_lt_of_le hpos hle
      have hf : 0 < s.stepsize * stepGrowthFactor cfg n :=
        mul_pos hpos (lt_of_lt_of_le one_pos (stepGrowthFactor_ge_one cfg haggr n))
      exact ⟨lt_min hf hmax0, min_le_right _ _⟩

theorem natReach_stepsize_bounds (P : Problem V) (cfg : NaturalConfig)
    (haggr : 0 ≤ cfg.lambda_stepsize_aggressiveness) :
    ∀ (n : ℕ) (s s2 : NatState V), natReach P cfg n s = some s2 →
      0 < s.stepsize → s.stepsize ≤ cfg.lambda_stepsize_max →
      0 < s2.stepsize ∧ s2.stepsize ≤ cfg.lambda_stepsize_max := by
  intro n
  induction n with
  | zero =>
    intro s s2 h hpos hle
    rw [natReach] at h
    injection h with h
    subst h
    exact ⟨hpos, hle⟩
  | succ n ih =>
    intro s s2 h hpos hle
    rw [natReach] at h
    rcases hit : naturalIter P cfg s with tr | s3 <;> rw [hit] at h
    · cases h
    · obtain ⟨h1, h2⟩ :=
        naturalIter_stepsize_bounds P cfg s s3 haggr hit hpos hle
      exact ih s3 s2 h h1 h2

/-- Claim C5 (amended): in every run whose configuration satisfies
`0 < lambda_stepsize0 ≤ lambda_stepsize_max` and has nonnegative step-growth
aggressiveness (and `max_newton_steps ≠ 1`, where the growth formula would
raise `ZeroDivisionError` in Python), the step size is strictly positive and at
most `lambda_stepsize_max` at the start of every continuation step the loop
reaches — in particular each time a predictor uses it, including the very
first.  The bound on the very first predictor step needs the added hypothesis
`lambda_stepsize0 ≤ lambda_stepsize_max`: the code never clamps the initial
step size. -/
theorem natural_stepsize_bounds (P : Problem V) (cfg : NaturalConfig)
    (u0 : V) (lambda0 : ℚ) (ms : Option (List ℚ)) (s0 s : NatState V) (n : ℕ)
    (h0 : 0 < cfg.lambda_stepsize0)
    (hm : cfg.lambda_stepsize0 ≤ cfg.lambda_stepsize_max)
    (haggr : 0 ≤ cfg.lambda_stepsize_aggressiveness)
    (hmn : cfg.max_newton_steps ≠ 1)
    (hi : naturalInit P cfg u0 lambda0 ms = InitOut.ready s0)
    (hr : natReach P cfg n s0 = some s) :
    0 < s.stepsize ∧ s.stepsize ≤ cfg.lambda_stepsize_max := by
  obtain ⟨-, -, -, -, -, -, hstep, -, -⟩ :=
    naturalInit_ready_spec P cfg u0 lambda0 ms s0 hi
  exact natReach_stepsize_bounds P cfg haggr n s0 s hr
    (by rw [hstep]; exact h0) (by rw [hstep]; exact hm)

/-- Claim C5 counterexample: with `lambda_stepsize0 = 2` strictly positive but
larger than `lambda_stepsize_max = 1`, the first continuation step starts (and
its predictor runs) with step size `2 > lambda_stepsize_max`, and the first
accepted step indeed jumps `λ` from `0` to `2`: the bound fails on the very
first predictor step. -/
theorem natural_stepsize_counterexample :
    naturalInit linProblem bigStepConfig 0 0 none =
      InitOut.ready ⟨1, 0, 0, 2, false, 0, [], [(0, 0, 0)]⟩
    ∧ natural linProblem bigStepConfig 0 0 none 2 =
        NaturalResult.ok [(0, 0, 0), (1, 2, 2)]
    ∧ ¬((⟨1, 0, 0, 2, false, 0, [], [(0, 0, 0)]⟩ : NatState ℚ).stepsize ≤
        bigStepConfig.lambda_stepsize_max) := by
  refine ⟨?_, ?_, by norm_num [bigStepConfig]⟩
  · norm_num [naturalInit, newton, newtonLoop, linProblem, bigStepConfig]
  · norm_num [natural, naturalInit, naturalLoop, naturalIter, correctorResult,
      trialLambda, predictorGuess, stepGrowthFactor, newton, newtonLoop,
      linProblem, bigStepConfig]

/-- Claim C5 witness: the amended bounds hold on the linear-problem run at the
state reached after one accepted step (step size grown to `9/10`, still within
the maximum `10`). -/
theorem natural_stepsize_bounds_witness :
    0 < (⟨2, 3/10, 3/10, 9/10, false, 0, [], [(0, 0, 0), (1, 3/10, 3/10)]⟩ :
        NatState ℚ).stepsize
    ∧ (⟨2, 3/10, 3/10, 9/10, false, 0, [], [(0, 0, 0), (1, 3/10, 3/10)]⟩ :
        NatState ℚ).stepsize ≤ hitConfig.lambda_stepsize_max :=
  natural_stepsize_bounds linProblem hitConfig 0 0 none
    ⟨1, 0, 0, 3/10, false, 0, [], [(0, 0, 0)]⟩
    ⟨2, 3/10, 3/10, 9/10, false, 0, [], [(0, 0, 0), (1, 3/10, 3/10)]⟩ 1
    (by norm_num [hitConfig]) (by norm_num [hitConfig])
    (by norm_num [hitConfig]) (by norm_num [hitConfig])
    (by norm_num [naturalInit, newton, newtonLoop, linProblem, hitConfig])
    (by norm_num [natReach, naturalIter, correctorResult, trialLambda,
      predictorGuess, stepGrowthFactor, newton, newtonLoop, linProblem,
      hitConfig])

theorem lambdaMono_append_one (tr : List (ℕ × ℚ × V)) (e : ℕ × ℚ × V)
    (hmono : lambdaMono tr) (hlast : ∀ x ∈ tr, x.2.1 ≤ e.2.1) :
    lambdaMono (tr ++ [e]) := by
  refine List.Chain'.append hmono (List.chain'_singleton e) ?_
  intro x hx y hy
  simp only [List.head?_cons, Option.mem_def, Option.some_inj] at hy
  subst hy
  obtain ⟨hne, rfl⟩ := List.mem_getLast?_eq_getLast hx
  exact hlast _ (List.getLast_mem hne)

theorem naturalLoop_mono (P : Problem V) (cfg : NaturalConfig)
    (haggr : 0 ≤ cfg.lambda_stepsize_aggressiveness) :
    ∀ (fuel : ℕ) (s : NatState V), s.msActive = false →
      0 < s.stepsize → s.stepsize ≤ cfg.lambda_stepsize_max →
      lambdaMono s.trace → (∀ e ∈ s.trace, e.2.1 ≤ s.lmbda) →
      lambdaMono ((naturalLoop P cfg fuel s).trace) := by
  intro fuel
  induction fuel with
  | zero =>
    intro s hms hpos hle hmono hbnd
    simpa [naturalLoop, NaturalResult.trace] using hmono
  | succ fuel ih =>
    intro s hms hpos hle hmono hbnd
    rcases hit : naturalIter P cfg s with tr | s2
    · rcases naturalIter_brk_cases P cfg s tr hit with ⟨-, htr⟩ |
        ⟨-, u, n, -, hact, -, -, -⟩
      · subst htr
        simpa [naturalLoop, hit, NaturalResult.trace] using hmono
      · rw [hms] at hact; cases hact
    · have htl : trialLambda s = s.lmbda + s.stepsize :=
        trialLambda_of_inactive s hms
      rcases (naturalIter_cont_cases P cfg s s2 hit).2 with
        ⟨m, herr, hs⟩ | ⟨u, n, hok, hcase2⟩
      · subst hs
        simp only [naturalLoop, hit]
        apply ih
        · exact hms
        · exact half_pos hpos
        · exact le_trans (by linarith) hle
        · exact hmono
        · intro e he
          show e.2.1 ≤ trialLambda s - s.stepsize
          have h2 := hbnd e he
          rw [htl]
          linarith
      · rcases hcase2 with ⟨m, rest, hact, -, -, -⟩ | ⟨-, hs⟩
        · rw [hms] at hact; cases hact
        · subst hs
          simp only [naturalLoop, hit]
          apply ih
          · exact hms
          · exact lt_min (mul_pos hpos (lt_of_lt_of_le one_pos
              (stepGrowthFactor_ge_one cfg haggr n))) (lt_of_lt_of_le hpos hle)
          · exact min_le_right _ _
          · apply lambdaMono_append_one s.trace (s.k, trialLambda s, u) hmono
            intro x hx
            show x.2.1 ≤ trialLambda s
            have h2 := hbnd x hx
            rw [htl]
            linarith
          · intro e he
            show e.2.1 ≤ trialLambda s
            have he3 : e ∈ s.trace ∨ e = (s.k, trialLambda s, u) := by
              simpa using he
            rw [htl]
            rcases he3 with he2 | he2
            · have h2 := hbnd e he2
              linarith
            · subst he2
              show trialLambda s ≤ s.lmbda + s.stepsize
              rw [htl]
  
/-- Claim C4 (amended): for every run of the driver without milestones, under a
well-formed configuration (`0 < lambda_stepsize0 ≤ lambda_stepsize_max`,
nonnegative aggressiveness, `max_newton_steps ≠ 1`), the sequence of `λ` values
passed to the callback across accepted steps is monotonically non-decreasing.
With milestones configured the property fails: a corrector failure at a
milestone-clamped trial backs `λ` off below the last accepted value, after
which a smaller `λ` can be accepted (see the counterexample). -/
theorem natural_lambda_monotone (P : Problem V) (cfg : NaturalConfig)
    (u0 : V) (lambda0 : ℚ) (fuel : ℕ)
    (h0 : 0 < cfg.lambda_stepsize0)
    (hm : cfg.lambda_stepsize0 ≤ cfg.lambda_stepsize_max)
    (haggr : 0 ≤ cfg.lambda_stepsize_aggressiveness)
    (hmn : cfg.max_newton_steps ≠ 1) :
    lambdaMono ((natural P cfg u0 lambda0 none fuel).trace) := by
  rw [natural]
  rcases hi : naturalInit P cfg u0 lambda0 none with m | tr | s
  · simp [NaturalResult.trace, lambdaMono]
  · exfalso
    rw [naturalInit] at hi
    rcases hok : newton (fun v => P.f v lambda0)
        (fun v rhs => P.jacobian_solver v lambda0 rhs)
        P.norm2_r u0 cfg.newton_tol cfg.max_newton_steps with m2 | p <;>
      rw [hok] at hi
    · cases hi
    · obtain ⟨u, k⟩ := p
      simp only at hi
      cases hi
  · obtain ⟨u, k, -, -, hl, -, hstep, htr, hdisj⟩ :=
      naturalInit_ready_spec P cfg u0 lambda0 none s hi
    rcases hdisj with ⟨-, hmsf⟩ | ⟨m, rest, hsome, -⟩
    · apply naturalLoop_mono P cfg haggr fuel s hmsf
      · rw [hstep]; exact h0
      · rw [hstep]; exact hm
      · rw [htr]; exact List.chain'_singleton _
      · rw [htr, hl]
        intro e he
        rw [List.mem_singleton] at he
        subst he
        simp
    · exact Option.noConfusion hsome

/-- Claim C4 counterexample: with milestones `[1/2]` and an intervening
corrector failure at the clamped trial `1/2`, the run from `λ0 = 2/5` produces
the accepted callback sequence `λ = 2/5, 7/20`, which is strictly decreasing:
the claimed monotonicity fails for runs with milestones and failures. -/
theorem natural_lambda_monotone_counterexample :
    natural clampProblem clampConfig 0 (2/5) (some [1/2]) 3 =
      NaturalResult.ok [(0, 2/5, 2/5), (1, 7/20, 7/20)]
    ∧ ¬ lambdaMono ((NaturalResult.ok [(0, (2:ℚ)/5, (2:ℚ)/5),
        (1, 7/20, 7/20)] : NaturalResult ℚ).trace) := by
  constructor
  · norm_num [natural, naturalInit, naturalLoop, naturalIter, correctorResult,
      trialLambda, predictorGuess, stepGrowthFactor, newton, newtonLoop,
      clampProblem, clampConfig]
  · intro hcontra
    rw [NaturalResult.trace, lambdaMono, List.chain'_cons] at hcontra
    have := hcontra.1
    norm_num at this

/-- Claim C4 witness: on the milestone-free linear run the callback `λ`
sequence is monotone; all configuration hypotheses hold for `hitConfig`. -/
theorem natural_lambda_monotone_witness :
    lambdaMono ((natural linProblem hitConfig 0 0 none 2).trace) :=
  natural_lambda_monotone linProblem hitConfig 0 0 2
    (by norm_num [hitConfig]) (by norm_num [hitConfig])
    (by norm_num [hitConfig]) (by norm_num [hitConfig])
